import Mathlib

/-!
Verification of the qualified-key-identifier core of a Matrix identifier
library (`ruma-identifiers` / `ruma-identifiers-validation`).

Strings are modelled at the byte level as `List Nat` (Rust `str` slicing,
`str::find` and `str` comparison are all byte-based; every concrete input
used below is ASCII, where one `Char` is one byte).  The Rust `as u8` cast
is modelled as `% 256`; `NonZeroU8::new` is the check against `0`.
Panics (`expect`/`unwrap`) are modelled as `Option` with `none` for the
panic branch; fallible `Result`-returning functions are `Except`.
-/

/-- Byte strings: a Rust `str` viewed as its UTF-8 bytes. -/
abbrev Str := List Nat

/-- Bytes of an ASCII Lean string literal (codepoint = byte for ASCII). -/
def strBytes (s : String) : Str := s.data.map Char.toNat

/-- The byte of the `:` delimiter. -/
def colonByte : Nat := 58

/-- The three validation errors of the qualified-key-id path
(`ruma_identifiers_validation::Error`, restricted to the variants this
module raises). -/
inductive KeyError where
  | MissingKeyDelimiter
  | UnknownKeyAlgorithm
  | InvalidKeyVersion
deriving DecidableEq, Repr

/-- A caller-supplied identifier domain: the Rust `FromStr` capability
(`from_str`, with the opaque per-domain error collapsed to `none`, since
`validate`/the accessors discard it via `map_err`/`unwrap`) together with
the `AsRef<str>` rendering capability (`as_ref`). -/
structure StrDomain (α : Type) where
  from_str : Str → Option α
  as_ref : α → Str

/-- Byte offset of the first colon: Rust `s.find(':')`. -/
def firstColon : Str → Option Nat
  | [] => none
  | b :: t => if b = colonByte then some 0 else (firstColon t).map (· + 1)

/-- Model of `ruma_identifiers_validation::qualified_key_id::validate::<A, K>`:

```rust
let colon_idx = NonZeroU8::new(s.find(':').ok_or(Error::MissingKeyDelimiter)? as u8)
    .ok_or(Error::UnknownKeyAlgorithm)?;
A::from_str(&s[0..colon_idx.get() as usize]).map_err(|_| Error::UnknownKeyAlgorithm)?;
K::from_str(&s[colon_idx.get() as usize + 1..]).map_err(|_| Error::InvalidKeyVersion)?;
Ok(colon_idx)
```

The `as u8` cast is `% 256`; the `NonZeroU8::new ... ok_or` is the
`= 0` test.  The returned `Nat` is the value of the `NonZeroU8`. -/
def validate (DA : StrDomain α) (DK : StrDomain κ) (s : Str) : Except KeyError Nat :=
  match firstColon s with
  | none => .error .MissingKeyDelimiter
  | some idx =>
    let colon_idx := idx % 256
    if colon_idx = 0 then .error .UnknownKeyAlgorithm
    else
      match DA.from_str (s.take colon_idx) with
      | none => .error .UnknownKeyAlgorithm
      | some _ =>
        match DK.from_str (s.drop (colon_idx + 1)) with
        | none => .error .InvalidKeyVersion
        | some _ => .ok colon_idx

/-- Model of `QualifiedKeyId<A, K>`: the full id string plus the 1-byte split
offset.  The two `PhantomData` fields are the phantom type parameters
`α`, `κ`. -/
structure QualifiedKeyId (α κ : Type) where
  full_id : Str
  colon_idx : Nat
deriving DecidableEq, Repr

/-- Model of `QualifiedKeyId::as_str`: returns `full_id`. -/
def QualifiedKeyId.as_str (q : QualifiedKeyId α κ) : Str := q.full_id

/-- Model of `QualifiedKeyId::as_bytes`: the bytes of `full_id`. -/
def QualifiedKeyId.as_bytes (q : QualifiedKeyId α κ) : Str := q.full_id

/-- Model of `impl From<QualifiedKeyId<A, K>> for String`: gives back `full_id`. -/
def QualifiedKeyId.intoString (q : QualifiedKeyId α κ) : Str := q.full_id

/-- Model of `impl Display for QualifiedKeyId`: emits `as_str` verbatim. -/
def QualifiedKeyId.display (q : QualifiedKeyId α κ) : Str := q.as_str

/-- The `try_from` helper behind `FromStr`, `TryFrom<&str>` and
`TryFrom<String>`: run `validate`, then store the original string with
the returned split offset (no copying, `key_id.into()`). -/
def try_from (DA : StrDomain α) (DK : StrDomain κ) (s : Str) :
    Except KeyError (QualifiedKeyId α κ) :=
  match validate DA DK s with
  | .error e => .error e
  | .ok colon_idx => .ok ⟨s, colon_idx⟩

/-- Model of `QualifiedKeyId::from_parts`:

```rust
let mut res = String::with_capacity(algorithm.len() + 1 + key_identifier.len());
res.push_str(algorithm); res.push_str(":"); res.push_str(key_identifier);
let colon_idx = NonZeroU8::new(algorithm.len().try_into().expect("no algorithm name len > 255"))
    .expect("no empty algorithm name");
```

The two `expect`s are panic branches, modelled as `none` (length > 255
fails the `try_into`, length 0 fails the `NonZeroU8::new`). -/
def QualifiedKeyId.from_parts (DA : StrDomain α) (DK : StrDomain κ) (a : α) (k : κ) :
    Option (QualifiedKeyId α κ) :=
  let algorithm := DA.as_ref a
  let key_identifier := DK.as_ref k
  let res := algorithm ++ colonByte :: key_identifier
  if algorithm.length ≤ 255 then
    if algorithm.length = 0 then none
    else some ⟨res, algorithm.length⟩
  else none

/-- Model of `QualifiedKeyId::algorithm`:
`A::from_str(&self.full_id[..self.colon_idx.get() as usize]).unwrap()`;
the `unwrap` panic is `none`. -/
def QualifiedKeyId.algorithm (DA : StrDomain α) (q : QualifiedKeyId α κ) : Option α :=
  DA.from_str (q.full_id.take q.colon_idx)

/-- Model of `QualifiedKeyId::identifier`:
`K::from_str(&self.full_id[self.colon_idx.get() as usize + 1..]).unwrap()`. -/
def QualifiedKeyId.identifier (DK : StrDomain κ) (q : QualifiedKeyId α κ) : Option κ :=
  DK.from_str (q.full_id.drop (q.colon_idx + 1))

/-- Comparison of Rust `str` values (`Ord::cmp`): lexicographic byte-wise comparison. -/
def strCmp : Str → Str → Ordering
  | [], [] => .eq
  | [], _ :: _ => .lt
  | _ :: _, [] => .gt
  | x :: xs, y :: ys =>
    match compare x y with
    | .eq => strCmp xs ys
    | .lt => .lt
    | .gt => .gt

/-- Model of `impl Ord for QualifiedKeyId`: compares `as_str` of the two sides. -/
def QualifiedKeyId.cmp (x y : QualifiedKeyId α κ) : Ordering :=
  strCmp x.as_str y.as_str

/-- Model of `impl PartialOrd for QualifiedKeyId`:
`PartialOrd::partial_cmp(self.as_str(), other.as_str())`, which for
`str` is `Some` of the total comparison. -/
def QualifiedKeyId.partialCmp (x y : QualifiedKeyId α κ) : Option Ordering :=
  some (strCmp x.as_str y.as_str)

/-- Model of `impl PartialEq for QualifiedKeyId`: equality of the `as_str` views. -/
def QualifiedKeyId.beq (x y : QualifiedKeyId α κ) : Bool :=
  x.as_str == y.as_str

/-- Model of `impl Hash for QualifiedKeyId` (it hashes `as_str` only): the
hash is the digest, by any hasher `h`, of `as_str()` alone. -/
def QualifiedKeyId.hashWith (h : Str → Nat) (q : QualifiedKeyId α κ) : Nat :=
  h q.as_str

/-- Model of `impl PartialEq<str> for QualifiedKeyId` (also `<&str>`, `<String>`):
compare the `AsRef<str>` views. -/
def QualifiedKeyId.eqStr (q : QualifiedKeyId α κ) (s : Str) : Bool :=
  q.as_str == s

/-- Model of `impl PartialEq<QualifiedKeyId> for str` (also for `&str`, `String`). -/
def strEqQualifiedKeyId (s : Str) (q : QualifiedKeyId α κ) : Bool :=
  s == q.as_str

/-- The `key_identifier!`-generated opaque wrapper (`KeyVersion` in
`signatures.rs`): a `#[repr(transparent)]` wrapper around the text.  The
borrowed/owned distinction is memory management only; both views expose
the same bytes. -/
structure KeyVersion where
  inner : Str
deriving DecidableEq, Repr

/-- Model of `KeyVersion::from_borrowed`: transmute of `&str` (zero-copy view). -/
def KeyVersion.from_borrowed (s : Str) : KeyVersion := ⟨s⟩

/-- Model of `KeyVersion::from_owned`: transmute of `Box<str>` (owned value). -/
def KeyVersion.from_owned (s : Str) : KeyVersion := ⟨s⟩

/-- Model of `KeyVersion::as_str`. -/
def KeyVersion.as_str (k : KeyVersion) : Str := k.inner

/-- Derived `PartialEq` on the transparent wrapper: compares the text. -/
def KeyVersion.beq (x y : KeyVersion) : Bool := x.inner == y.inner

/-- Model of the `partial_eq_string!`-generated `PartialEq<str/String>` on the wrapper. -/
def KeyVersion.eqStr (k : KeyVersion) (t : Str) : Bool := k.as_str == t

/-- Model of the `partial_eq_string!`-generated `PartialEq<KeyVersion> for str/String`. -/
def strEqKeyVersion (t : Str) (k : KeyVersion) : Bool := t == k.as_str

/- Concrete domains used as test instances for the generic parameters. -/

/-- A domain whose parser accepts every string (renders to `""`). -/
def acceptAll : StrDomain Unit := ⟨fun _ => some (), fun _ => []⟩

/-- A domain whose parser rejects every string. -/
def rejectAll : StrDomain Unit := ⟨fun _ => none, fun _ => []⟩

/-- The identity domain: parses any string to itself, renders itself. -/
def idDomain : StrDomain Str := ⟨fun s => some s, fun s => s⟩

/-- A domain accepting any non-empty string, rendering it unchanged. -/
def nonEmptyDomain : StrDomain Str :=
  ⟨fun s => if s = [] then none else some s, fun s => s⟩

/-- A domain accepting exactly the string `sha256`. -/
def sha256Domain : StrDomain Unit :=
  ⟨fun s => if s = strBytes "sha256" then some () else none, fun _ => strBytes "sha256"⟩

/-- An input whose first colon sits at byte offset 257: 257 `a`s, a
colon, then `b`.  `257 as u8` truncates to `1`. -/
def evilInput : Str := List.replicate 257 97 ++ colonByte :: [98]

set_option maxRecDepth 4000

deriving instance DecidableEq for Except

/-! ### Helper lemmas about the colon scan and `validate` -/

theorem firstColon_eq_none_iff (s : Str) : firstColon s = none ↔ colonByte ∉ s := by
  induction s with
  | nil => simp [firstColon]
  | cons b t ih =>
    by_cases hb : b = colonByte
    · simp [firstColon, hb]
    · simp [firstColon, hb, Option.map_eq_none', ih, Ne.symm hb]

theorem validate_missing_iff (DA : StrDomain α) (DK : StrDomain κ) (s : Str) :
    validate DA DK s = .error .MissingKeyDelimiter ↔ firstColon s = none := by
  cases hfc : firstColon s with
  | none => simp [validate, hfc]
  | some i =>
    simp only [validate, hfc]
    by_cases h0 : i % 256 = 0
    · simp [h0]
    · simp only [h0, if_false]
      cases hA : DA.from_str (s.take (i % 256)) with
      | none => simp
      | some _ =>
        cases hK : DK.from_str (s.drop (i % 256 + 1)) <;> simp

theorem validate_eq_of_firstColon (DA : StrDomain α) (DK : StrDomain κ) (s : Str) (i : Nat)
    (h : firstColon s = some i) (h1 : i ≠ 0) (h2 : i ≤ 255) :
    validate DA DK s =
      match DA.from_str (s.take i) with
      | none => .error .UnknownKeyAlgorithm
      | some _ =>
        match DK.from_str (s.drop (i + 1)) with
        | none => .error .InvalidKeyVersion
        | some _ => .ok i := by
  have hmod : i % 256 = i := Nat.mod_eq_of_lt (by omega)
  simp [validate, h, hmod, h1]

/-! ### Claims about the validation routine -/

/-- Claim C1 is refuted by evaluation: on the input of 257 `a`s
followed by `:b` (first colon at byte offset 257 > 255), with both
domains accepting every string, `validate` does **not** fail with
`UnknownKeyAlgorithm` — the `as u8` cast truncates 257 to 1 and
validation succeeds with split offset 1. -/
theorem validate_overlong_offset_accepted :
    validate acceptAll acceptAll evilInput = .ok 1
    ∧ firstColon evilInput = some 257
    ∧ 255 < 257 := by
  refine ⟨by decide, by decide, by decide⟩

/-- Claim C2 is refuted on the parse path by evaluation: `try_from` on
the offset-257 input succeeds and returns an instance whose stored
`colon_idx` is 1, but the byte of `full_id` at position 1 is `a`
(97), not `:` (58) — the designated-split-point invariant is broken. -/
theorem parse_result_invariant_broken :
    try_from acceptAll acceptAll evilInput = .ok ⟨evilInput, 1⟩
    ∧ evilInput.get? 1 = some 97
    ∧ ¬ evilInput.get? 1 = some colonByte := by
  refine ⟨by decide, by decide, by decide⟩

/-- Claim C3, universal part, is refuted by evaluation: on the
offset-257 input `validate` succeeds returning 1, which is not the
byte offset (257) of the first colon.  The concrete
`sha256:abc123` scenario of the claim does hold: the split offset is
6 and the two substrings are `sha256` and `abc123`. -/
theorem validate_offset_not_first_colon :
    validate acceptAll acceptAll evilInput = .ok 1
    ∧ firstColon evilInput = some 257
    ∧ (1 : Nat) ≠ 257
    ∧ validate sha256Domain nonEmptyDomain (strBytes "sha256:abc123") = .ok 6
    ∧ (strBytes "sha256:abc123").take 6 = strBytes "sha256"
    ∧ (strBytes "sha256:abc123").drop 7 = strBytes "abc123" := by
  refine ⟨by decide, by decide, by decide, by decide, by decide, by decide⟩

/-- Claim C10: an input starting with `:` (first colon at offset 0,
empty algorithm part) fails with `UnknownKeyAlgorithm` for every
Algorithm domain and every KeyVersion domain — the `NonZeroU8::new`
check rejects offset 0 before any domain parser runs, so the result
does not depend on the Algorithm parser even when it accepts the
empty prefix (as `acceptAll` does, second conjunct). -/
theorem validate_leading_colon (α κ : Type) (DA : StrDomain α) (DK : StrDomain κ) (t : Str) :
    validate DA DK (colonByte :: t) = .error .UnknownKeyAlgorithm
    ∧ acceptAll.from_str ((colonByte :: t).take 0) = some () := by
  constructor
  · simp [validate, firstColon]
  · rfl

/-- Claim C4: `validate` fails with `MissingKeyDelimiter` exactly when
the input has no colon (in particular on the empty input); when the
first colon sits at an in-range offset (1..=255), it fails with
`UnknownKeyAlgorithm` exactly when the Algorithm parser rejects the
prefix, and otherwise fails with `InvalidKeyVersion` exactly when the
KeyVersion parser rejects the suffix. -/
theorem validate_error_taxonomy (DA : StrDomain α) (DK : StrDomain κ) :
    (∀ s : Str, validate DA DK s = .error .MissingKeyDelimiter ↔ colonByte ∉ s)
    ∧ validate DA DK [] = .error .MissingKeyDelimiter
    ∧ ∀ s i, firstColon s = some i → 1 ≤ i → i ≤ 255 →
        ((validate DA DK s = .error .UnknownKeyAlgorithm ↔ DA.from_str (s.take i) = none)
          ∧ (DA.from_str (s.take i) ≠ none →
              (validate DA DK s = .error .InvalidKeyVersion ↔
                DK.from_str (s.drop (i + 1)) = none))) := by
  refine ⟨?_, ?_, ?_⟩
  · intro s
    exact (validate_missing_iff DA DK s).trans (firstColon_eq_none_iff s)
  · simp [validate, firstColon]
  · intro s i hfc h1 h255
    rw [validate_eq_of_firstColon DA DK s i hfc (by omega) h255]
    cases hA : DA.from_str (s.take i) with
    | none => simp
    | some a =>
      cases hK : DK.from_str (s.drop (i + 1)) <;> simp

/-- Witness for C4 at concrete inputs: a rejecting Algorithm domain
gives `UnknownKeyAlgorithm` on `a:b`, a rejecting KeyVersion domain
gives `InvalidKeyVersion` on `a:b`, and colon-free inputs give
`MissingKeyDelimiter`. -/
theorem validate_error_taxonomy_witness :
    validate rejectAll acceptAll (strBytes "a:b") = .error .UnknownKeyAlgorithm
    ∧ validate acceptAll rejectAll (strBytes "a:b") = .error .InvalidKeyVersion
    ∧ validate acceptAll acceptAll (strBytes "novalue") = .error .MissingKeyDelimiter
    ∧ validate acceptAll acceptAll ([] : Str) = .error .MissingKeyDelimiter := by
  refine ⟨?_, ?_, ?_, ?_⟩
  · exact ((validate_error_taxonomy rejectAll acceptAll).2.2 (strBytes "a:b") 1
      (by decide) (by decide) (by decide)).1.mpr (by decide)
  · exact (((validate_error_taxonomy acceptAll rejectAll).2.2 (strBytes "a:b") 1
      (by decide) (by decide) (by decide)).2 (by decide)).mpr (by decide)
  · exact ((validate_error_taxonomy acceptAll acceptAll).1 (strBytes "novalue")).mpr (by decide)
  · exact (validate_error_taxonomy acceptAll acceptAll).2.1

/-- Claim C5: parse round-trip — a successfully parsed
`QualifiedKeyId` renders back (via `as_str`, conversion to `String`,
and `Display`) to exactly the input string: `try_from` stores the
original string unchanged. -/
theorem try_from_roundtrip (DA : StrDomain α) (DK : StrDomain κ) (s : Str)
    (x : QualifiedKeyId α κ) (h : try_from DA DK s = .ok x) :
    x.as_str = s ∧ x.intoString = s ∧ x.display = s := by
  cases hv : validate DA DK s with
  | error e => simp [try_from, hv] at h
  | ok c =>
    simp only [try_from, hv, Except.ok.injEq] at h
    subst h
    exact ⟨rfl, rfl, rfl⟩

/-- Witness for C5: parsing `a:b` under the identity domains succeeds
and renders back to `a:b`. -/
theorem try_from_roundtrip_witness :
    (⟨strBytes "a:b", 1⟩ : QualifiedKeyId Str Str).as_str = strBytes "a:b"
    ∧ try_from idDomain idDomain (strBytes "a:b") = .ok ⟨strBytes "a:b", 1⟩ :=
  ⟨(try_from_roundtrip idDomain idDomain (strBytes "a:b") ⟨strBytes "a:b", 1⟩ (by decide)).1,
    by decide⟩

/-- Claim C6: decompose-after-compose — when each domain parser
inverts its rendering and the rendered algorithm text has byte length
in 1..=255, `from_parts` succeeds and the `algorithm()` and
`identifier()` accessors recover exactly the two composed values. -/
theorem from_parts_decompose (DA : StrDomain α) (DK : StrDomain κ) (a : α) (k : κ)
    (hA : DA.from_str (DA.as_ref a) = some a)
    (hK : DK.from_str (DK.as_ref k) = some k)
    (h1 : 1 ≤ (DA.as_ref a).length) (h2 : (DA.as_ref a).length ≤ 255) :
    ∃ q : QualifiedKeyId α κ,
      QualifiedKeyId.from_parts DA DK a k = some q
      ∧ q.algorithm DA = some a
      ∧ q.identifier DK = some k := by
  refine ⟨⟨DA.as_ref a ++ colonByte :: DK.as_ref k, (DA.as_ref a).length⟩, ?_, ?_, ?_⟩
  · simp only [QualifiedKeyId.from_parts]
    rw [if_pos h2, if_neg (by omega)]
  · show DA.from_str ((DA.as_ref a ++ colonByte :: DK.as_ref k).take (DA.as_ref a).length)
      = some a
    rw [List.take_left]
    exact hA
  · show DK.from_str ((DA.as_ref a ++ colonByte :: DK.as_ref k).drop ((DA.as_ref a).length + 1))
      = some k
    have hsplit : DA.as_ref a ++ colonByte :: DK.as_ref k
        = (DA.as_ref a ++ [colonByte]) ++ DK.as_ref k := by simp
    rw [hsplit, List.drop_left' (by simp)]
    exact hK

/-- Witness for C6: composing `ed25519` and `1` under the identity
domains yields `ed25519:1` with split offset 7, and both accessors
recover the composed parts. -/
theorem from_parts_decompose_witness :
    QualifiedKeyId.from_parts idDomain idDomain (strBytes "ed25519") (strBytes "1")
      = some ⟨strBytes "ed25519:1", 7⟩
    ∧ (⟨strBytes "ed25519:1", 7⟩ : QualifiedKeyId Str Str).algorithm idDomain
      = some (strBytes "ed25519")
    ∧ (⟨strBytes "ed25519:1", 7⟩ : QualifiedKeyId Str Str).identifier idDomain
      = some (strBytes "1") := by
  obtain ⟨q, hq, ha, hk⟩ := from_parts_decompose idDomain idDomain
    (strBytes "ed25519") (strBytes "1") (by decide) (by decide) (by decide) (by decide)
  have heq : some q = some (⟨strBytes "ed25519:1", 7⟩ : QualifiedKeyId Str Str) := by
    rw [← hq]; decide
  injection heq with heq
  subst heq
  exact ⟨hq, ha, hk⟩

/-- Claim C7: the `Ord`/`PartialOrd` comparison of two
`QualifiedKeyId` values is the lexicographic byte-wise comparison of
their rendered texts — in particular `X:10` orders strictly before
`X:2` (textual, not numeric, ordering of the version part). -/
theorem qualified_key_id_order_lexicographic :
    (∀ (α κ : Type) (x y : QualifiedKeyId α κ),
        QualifiedKeyId.cmp x y = strCmp x.as_str y.as_str
        ∧ QualifiedKeyId.partialCmp x y = some (QualifiedKeyId.cmp x y))
    ∧ (QualifiedKeyId.from_parts idDomain idDomain (strBytes "X") (strBytes "10")).bind
        (fun q10 => (QualifiedKeyId.from_parts idDomain idDomain (strBytes "X") (strBytes "2")).map
          (fun q2 => QualifiedKeyId.cmp q10 q2)) = some .lt
    ∧ strCmp (strBytes "X:10") (strBytes "X:2") = .lt := by
  exact ⟨fun α κ x y => ⟨rfl, rfl⟩, by decide, by decide⟩

/-- Claim C8: `from_parts` cannot surface any of the three validation
errors — its panic-modelling return type is `Option`, with no
`KeyError` at all — and under the precondition that the rendered
algorithm text has byte length in 1..=255 both panic branches are
unreachable: it totally returns the concatenated instance. -/
theorem from_parts_total_in_range (DA : StrDomain α) (DK : StrDomain κ) (a : α) (k : κ)
    (h1 : 1 ≤ (DA.as_ref a).length) (h2 : (DA.as_ref a).length ≤ 255) :
    QualifiedKeyId.from_parts DA DK a k
      = some ⟨DA.as_ref a ++ colonByte :: DK.as_ref k, (DA.as_ref a).length⟩ := by
  simp only [QualifiedKeyId.from_parts]
  rw [if_pos h2, if_neg (by omega)]

/-- Witness for C8: composing one-byte parts `a` and `b` yields
`a:b` with split offset 1. -/
theorem from_parts_total_in_range_witness :
    QualifiedKeyId.from_parts idDomain idDomain (strBytes "a") (strBytes "b")
      = some ⟨strBytes "a:b", 1⟩
    ∧ 1 ≤ (idDomain.as_ref (strBytes "a")).length
    ∧ (idDomain.as_ref (strBytes "a")).length ≤ 255 := by
  refine ⟨?_, by decide, by decide⟩
  rw [from_parts_total_in_range idDomain idDomain (strBytes "a") (strBytes "b")
    (by decide) (by decide)]
  decide

/-- Claim C9: equality and hashing are determined solely by the
stored text — a parsed instance and a composed instance with equal
`as_str` compare equal (both ways) and hash equal under every hasher;
the string/identifier cross-type equalities agree in both directions;
and a borrowed wrapper view and an owned wrapper built from the same
bytes compare equal. -/
theorem eq_hash_by_text (DA : StrDomain α) (DK : StrDomain κ) (s : Str) (a : α) (k : κ)
    (x y : QualifiedKeyId α κ) (h : Str → Nat) (t : Str)
    (_hx : try_from DA DK s = .ok x)
    (_hy : QualifiedKeyId.from_parts DA DK a k = some y)
    (hxy : x.as_str = y.as_str) :
    QualifiedKeyId.beq x y = true
    ∧ QualifiedKeyId.beq y x = true
    ∧ x.hashWith h = y.hashWith h
    ∧ QualifiedKeyId.eqStr x t = strEqQualifiedKeyId t x
    ∧ KeyVersion.beq (KeyVersion.from_borrowed t) (KeyVersion.from_owned t) = true
    ∧ KeyVersion.eqStr (KeyVersion.from_borrowed t) ((KeyVersion.from_owned t).as_str) = true := by
  refine ⟨?_, ?_, ?_, ?_, ?_, ?_⟩
  · simp [QualifiedKeyId.beq, hxy]
  · simp [QualifiedKeyId.beq, hxy]
  · simp [QualifiedKeyId.hashWith, hxy]
  · show (x.as_str == t) = (t == x.as_str)
    rw [Bool.eq_iff_iff]
    simp only [beq_iff_eq]
    exact eq_comm
  · simp [KeyVersion.beq, KeyVersion.from_borrowed, KeyVersion.from_owned]
  · simp [KeyVersion.eqStr, KeyVersion.as_str, KeyVersion.from_borrowed, KeyVersion.from_owned]

/-- Witness for C9: a parse of `p:q` and a composition of `p` and `q`
give instances over the same text; they compare equal, hash equal
under the length hasher, the cross-type equalities agree, and the
borrowed and owned wrapper views of `p:q` compare equal. -/
theorem eq_hash_by_text_witness :
    QualifiedKeyId.beq (⟨strBytes "p:q", 1⟩ : QualifiedKeyId Str Str) ⟨strBytes "p:q", 1⟩ = true
    ∧ QualifiedKeyId.hashWith List.length (⟨strBytes "p:q", 1⟩ : QualifiedKeyId Str Str)
      = QualifiedKeyId.hashWith List.length (⟨strBytes "p:q", 1⟩ : QualifiedKeyId Str Str)
    ∧ QualifiedKeyId.eqStr (⟨strBytes "p:q", 1⟩ : QualifiedKeyId Str Str) (strBytes "p:q")
      = strEqQualifiedKeyId (strBytes "p:q") (⟨strBytes "p:q", 1⟩ : QualifiedKeyId Str Str)
    ∧ KeyVersion.beq (KeyVersion.from_borrowed (strBytes "p:q"))
        (KeyVersion.from_owned (strBytes "p:q")) = true := by
  have hmain := eq_hash_by_text idDomain idDomain (strBytes "p:q") (strBytes "p") (strBytes "q")
    ⟨strBytes "p:q", 1⟩ ⟨strBytes "p:q", 1⟩ List.length (strBytes "p:q")
    (by decide) (by decide) rfl
  exact ⟨hmain.1, hmain.2.2.1, hmain.2.2.2.1, hmain.2.2.2.2.1⟩
